import Mathlib

/-! Verification of frps-panel, file `pkg/server/server.go`.

A shallow embedding of the server bootstrap code: the locale catalog loader
(`LoadSupportLanguage`), the language getter installed by `GinI18nLocalize`,
and the lifecycle operations `New` and `Stop`.

Conventions of the embedding.

* A Go `error` is its message; `nil` is `none`.
* A Go call ends in one of three ways (`Outcome`): it returns, it panics, or
  the process exits (`os.Exit`, reached through `log.Fatalf`).
* Code that lives outside the repository (`golang.org/x/text/language`, `os`,
  `path/filepath`, `gin-contrib/i18n`, the `controller` package, `net/http`)
  is not re-implemented: it is a field of `LanguagePkg` or `Env`, or an
  argument, and theorems quantify over it.
* A nil slice and an empty slice are both the empty list.
-/

namespace FrpsPanel

/-- Go `error` values, identified by their message. -/
abbrev GoError := String

/-- The three ways a Go call can end: a normal return, a panic unwinding the
goroutine, or termination of the process by `os.Exit`. -/
inductive Outcome (α : Type) where
  | ret (a : α)
  | panic (msg : String)
  | exit (code : Nat)
  deriving DecidableEq, Repr

/-! ## External packages -/

/-- The part of `golang.org/x/text/language` used by `server.go`.
`Parse` returns a tag together with an error, and a tag is returned also when
the error is non-nil. `ParseAcceptLanguage` returns the tags ordered by
weight and an error; the weights are discarded by the caller
(`lang, _, err := ...`). `tagString` is `Tag.String`, `Chinese` is
`language.Chinese`. -/
structure LanguagePkg (Tag : Type) where
  Parse : String → Tag × Option GoError
  ParseAcceptLanguage : String → List Tag × Option GoError
  tagString : Tag → String
  Chinese : Tag

/-- Go `os.FileInfo`; only `Name()` is used. -/
structure FileInfo where
  Name : String
  deriving DecidableEq, Repr

/-- What the operating system answers for one directory path: the error of
`os.Open`, the entries and the error of `Readdir(-1)` on the opened handle
(entries read before an error are returned with it), the error of `Close`. -/
structure DirAnswer where
  openErr : Option GoError
  entries : List FileInfo
  readdirErr : Option GoError
  closeErr : Option GoError
  deriving DecidableEq, Repr

/-- The process state the loader acts on: the directory handles that were
opened and on which `Close` has not been called, newest first. A handle is
named by the path it was opened on. -/
structure World where
  openHandles : List String
  deriving DecidableEq, Repr

/-- Go `os.Open(dir)`: the handle is nil (`none`) when the error is non-nil. -/
def osOpen (fs : String → DirAnswer) (dir : String) (w : World) :
    (Option String × Option GoError) × World :=
  match (fs dir).openErr with
  | some e => ((none, some e), w)
  | none => ((some dir, none), ⟨dir :: w.openHandles⟩)

/-- Go `(*os.File).Readdir(-1)`. On a nil receiver the standard library returns
`os.ErrInvalid` and does not dereference the handle. -/
def Readdir (fs : String → DirAnswer) (f : Option String) :
    List FileInfo × Option GoError :=
  match f with
  | none => ([], some "invalid argument")
  | some h => ((fs h).entries, (fs h).readdirErr)

/-- Go `(*os.File).Close()`: the handle is released whether or not an error is
reported. -/
def Close (fs : String → DirAnswer) (f : Option String) (w : World) :
    Option GoError × World :=
  match f with
  | none => (some "invalid argument", w)
  | some h => ((fs h).closeErr, ⟨w.openHandles.erase h⟩)

/-- Go `strings.HasSuffix`. The suffix used by the program is ASCII, for which
the test on characters and the test on bytes agree. -/
def HasSuffix (s suffix : String) : Bool :=
  suffix.data.isSuffixOf s.data

/-- Go `strings.CutSuffix(s, suffix)`: `s` without the trailing `suffix` and
`true`, or `s` itself and `false` when `s` does not end in `suffix`. -/
def CutSuffix (s suffix : String) : String × Bool :=
  if HasSuffix s suffix then
    (String.mk (s.data.take (s.data.length - suffix.data.length)), true)
  else
    (s, false)

/-! ## Locale catalog loader -/

/-- The body of the `for _, file := range fileList` loop of
`LoadSupportLanguage` (lines 93-95): both the flag of `CutSuffix` and the
error of `language.Parse` are discarded, and the tag is appended. -/
def scanStep {Tag : Type} (lib : LanguagePkg Tag) (tags : List Tag) (file : FileInfo) :
    List Tag :=
  let name := (CutSuffix file.Name ".json").1
  let parsedLang := (lib.Parse name).1
  tags ++ [parsedLang]

/-- Function `LoadSupportLanguage(dir)` (lines 76-103), with the process state passed
explicitly. The error of `os.Open` is overwritten by that of `Readdir`. -/
def LoadSupportLanguage {Tag : Type} (lib : LanguagePkg Tag) (fs : String → DirAnswer)
    (dir : String) (w : World) : (List Tag × Option GoError) × World :=
  let tags : List Tag := []
  let opened := osOpen fs dir w
  let files := opened.1.1
  let w1 := opened.2
  let listed := Readdir fs files
  let fileList := listed.1
  match listed.2 with
  | some err => ((tags, some err), w1)
  | none =>
    let closed := Close fs files w1
    let w2 := closed.2
    match closed.1 with
    | some err => (([], some err), w2)
    | none =>
      let tags := fileList.foldl (scanStep lib) tags
      if tags.length = 0 then
        ((tags, some ("not found any language file in directory: " ++ dir)), w2)
      else
        ((tags, none), w2)

/-! ## Language getter -/

/-- The request seen by the getter: its header fields, keyed by canonical
name. -/
structure Context where
  header : List (String × String)
  deriving DecidableEq, Repr

/-- Method `(*gin.Context).GetHeader(key)`: the first value stored under `key`, the
empty string when there is none. -/
def Context.GetHeader (c : Context) (key : String) : String :=
  match c.header.find? (fun kv => kv.1 == key) with
  | some kv => kv.2
  | none => ""

/-- The closure passed to `ginI18n.WithGetLngHandle` (lines 126-133).
`lang[0]` on an empty slice is a run-time panic. -/
def GetLngHandle {Tag : Type} (lib : LanguagePkg Tag) (context : Context)
    (defaultLng : String) : Outcome String :=
  let header := context.GetHeader "Accept-Language"
  let parsed := lib.ParseAcceptLanguage header
  match parsed.2 with
  | some _ => Outcome.ret defaultLng
  | none =>
    match parsed.1 with
    | [] => Outcome.panic "runtime error: index out of range [0] with length 0"
    | t :: _ => Outcome.ret (lib.tagString t)

/-- Struct `ginI18n.BundleCfg` as filled in at lines 118-124 (`UnmarshalFunc` is the
constant `json.Unmarshal`). -/
structure BundleCfg (Tag : Type) where
  RootPath : String
  AcceptLanguage : List Tag
  DefaultLanguage : Tag
  FormatBundleFile : String

/-- The two options handed to `ginI18n.Localize` (lines 117-135). -/
structure LocalizeOptions (Tag : Type) where
  bundle : BundleCfg Tag
  getLngHandle : Context → String → Outcome String

/-- The options built by `GinI18nLocalize` once the supported tags are
loaded. -/
def localizeOptions {Tag : Type} (lib : LanguagePkg Tag) (lang : String) (tags : List Tag) :
    LocalizeOptions Tag :=
  ⟨⟨lang, tags, lib.Chinese, "json"⟩, GetLngHandle lib⟩

/-! ## Server lifecycle -/

/-- Everything outside the repository that `New` reaches. `Localize` is
`ginI18n.Localize` and `Register` is
`controller.NewHandleController(&cfg).Register`; either may panic. -/
structure Env (Tag Handler Cfg : Type) where
  lang : LanguagePkg Tag
  fs : String → DirAnswer
  Stat : String → Option GoError
  IsExist : GoError → Bool
  Join : String → String → String
  Localize : LocalizeOptions Tag → Outcome Handler
  Register : Cfg → String → List Handler → Outcome Unit

/-- The locale directory chosen at lines 106-111: `rootDir/assets/lang`, or
`./assets/lang` when `os.Stat` fails with an error that is not an
already-exists error. -/
def langDir {Tag Handler Cfg : Type} (env : Env Tag Handler Cfg) (rootDir : String) : String :=
  let assets := env.Join rootDir "assets"
  let assets :=
    match env.Stat assets with
    | some err => if !env.IsExist err then "./assets" else assets
    | none => assets
  env.Join assets "lang"

/-- Function `GinI18nLocalize(rootDir)` (lines 105-136). `log.Panicf` prints and then
panics with the formatted message. -/
def GinI18nLocalize {Tag Handler Cfg : Type} (env : Env Tag Handler Cfg) (rootDir : String)
    (w : World) : Outcome Handler × World :=
  let lang := langDir env rootDir
  let loaded := LoadSupportLanguage env.lang env.fs lang w
  let tags := loaded.1.1
  match loaded.1.2 with
  | some err => (Outcome.panic ("language file is not found: " ++ err), loaded.2)
  | none => (env.Localize (localizeOptions env.lang lang tags), loaded.2)

/-- A `chan struct{}` on which nothing is ever sent: all that matters is
whether it has been closed. -/
structure Chan where
  closed : Bool
  deriving DecidableEq, Repr

/-- Go `close(c)`: closing a closed channel panics. -/
def Chan.close (c : Chan) : Outcome Chan :=
  if c.closed then Outcome.panic "close of closed channel" else Outcome.ret ⟨true⟩

/-- Receive `<-c` on a channel nobody sends on: it completes (`some ()`) exactly when
the channel is closed, and blocks (`none`) while it is open. -/
def Chan.recv (c : Chan) : Option Unit :=
  if c.closed then some () else none

/-- Go `http.Server` with its `Handler` field set to the engine, the engine being the list of installed
middleware. -/
structure HttpServer (Handler : Type) where
  Handler : List Handler

/-- The `Server` struct (lines 22-27); `s` is nil until `initHTTPServer`. -/
structure Server (Handler Cfg : Type) where
  cfg : Cfg
  s : Option (HttpServer Handler)
  done : Chan
  rootDir : String

/-- Method `(*Server).initHTTPServer` (lines 138-147): the returned error is always
nil. -/
def Server.initHTTPServer {Tag Handler Cfg : Type} (env : Env Tag Handler Cfg)
    (s : Server Handler Cfg) (w : World) :
    Outcome (Option GoError × Server Handler Cfg) × World :=
  let engine : List Handler := []
  match GinI18nLocalize env s.rootDir w with
  | (Outcome.panic msg, w1) => (Outcome.panic msg, w1)
  | (Outcome.exit code, w1) => (Outcome.exit code, w1)
  | (Outcome.ret h, w1) =>
    let engine := engine ++ [h]
    let s1 : Server Handler Cfg := ⟨s.cfg, some ⟨engine⟩, s.done, s.rootDir⟩
    match env.Register s1.cfg s1.rootDir engine with
    | Outcome.panic msg => (Outcome.panic msg, w1)
    | Outcome.exit code => (Outcome.exit code, w1)
    | Outcome.ret _ => (Outcome.ret (none, s1), w1)

/-- Method `(*Server).init` (lines 68-74). -/
def Server.init {Tag Handler Cfg : Type} (env : Env Tag Handler Cfg)
    (s : Server Handler Cfg) (w : World) :
    Outcome (Option GoError × Server Handler Cfg) × World :=
  match Server.initHTTPServer env s w with
  | (Outcome.panic msg, w1) => (Outcome.panic msg, w1)
  | (Outcome.exit code, w1) => (Outcome.exit code, w1)
  | (Outcome.ret (some err, s1), w1) => (Outcome.ret (some err, s1), w1)
  | (Outcome.ret (none, s1), w1) => (Outcome.ret (none, s1), w1)

/-- Function `New(rootDir, cfg)` (lines 29-39): the returned pair is the server handle
(`none` for nil) and the error. -/
def New {Tag Handler Cfg : Type} (env : Env Tag Handler Cfg) (rootDir : String) (cfg : Cfg)
    (w : World) : Outcome (Option (Server Handler Cfg) × Option GoError) × World :=
  let s : Server Handler Cfg := ⟨cfg, none, ⟨false⟩, rootDir⟩
  match Server.init env s w with
  | (Outcome.panic msg, w1) => (Outcome.panic msg, w1)
  | (Outcome.exit code, w1) => (Outcome.exit code, w1)
  | (Outcome.ret (some err, _), w1) => (Outcome.ret (none, some err), w1)
  | (Outcome.ret (none, s1), w1) => (Outcome.ret (some s1, none), w1)

/-- Method `(*Server).Stop` (lines 57-66). `shutdown` is what `s.s.Shutdown(ctx)`
returns. `log.Fatalf` prints and calls `os.Exit(1)`, so nothing after it
runs. The result is the outcome and the server afterwards. -/
def Server.Stop {Handler Cfg : Type} (s : Server Handler Cfg) (shutdown : Option GoError) :
    Outcome (Option GoError) × Server Handler Cfg :=
  match s.s with
  | none => (Outcome.panic "runtime error: invalid memory address or nil pointer dereference", s)
  | some _ =>
    match shutdown with
    | some _ => (Outcome.exit 1, s)
    | none =>
      match s.done.close with
      | Outcome.panic msg => (Outcome.panic msg, s)
      | Outcome.exit code => (Outcome.exit code, s)
      | Outcome.ret c => (Outcome.ret none, ⟨s.cfg, s.s, c, s.rootDir⟩)

/-- The wait of `Run` at line 53, `<-s.done`: `none` while `Run` stays
blocked. -/
def Server.runWait {Handler Cfg : Type} (s : Server Handler Cfg) : Option Unit :=
  s.done.recv

/-! ## Vocabulary of the statements -/

/-- The tag the scan appends for a directory entry. -/
def entryTag {Tag : Type} (lib : LanguagePkg Tag) (file : FileInfo) : Tag :=
  (lib.Parse (CutSuffix file.Name ".json").1).1

/-- An entry is validly named when its name, cut, parses without error. -/
def validEntry {Tag : Type} (lib : LanguagePkg Tag) (file : FileInfo) : Prop :=
  (lib.Parse (CutSuffix file.Name ".json").1).2 = none

/-- A directory is readable when it opens, lists and closes without error. -/
def Readable (fs : String → DirAnswer) (dir : String) : Prop :=
  (fs dir).openErr = none ∧ (fs dir).readdirErr = none ∧ (fs dir).closeErr = none

/-! ## Sample instances

A small language package and file system on which the statements below are
evaluated. -/

/-- A language package over string tags that knows `en`, `zh` and `zh-CN`;
any other name yields the undetermined tag `und` with a syntax error. Its
header parser knows three header values and rejects the rest. As in
`golang.org/x/text/language`, the empty header yields no tag and no error
(the entry loop does not run), and a tag of weight zero is dropped. -/
def sampleLang : LanguagePkg String where
  Parse := fun s =>
    if s = "en" ∨ s = "zh" ∨ s = "zh-CN" then (s, none)
    else ("und", some "language: tag is not well-formed")
  ParseAcceptLanguage := fun h =>
    if h = "" then ([], none)
    else if h = "zh-CN,en;q=0.8" then (["zh-CN", "en"], none)
    else if h = "en;q=0" then ([], none)
    else ([], some "language: tag is not well-formed")
  tagString := fun t => t
  Chinese := "zh"

/-- A file system with six directories; every other path cannot be
opened. -/
def sampleFs (dir : String) : DirAnswer :=
  if dir = "assets/lang" then ⟨none, [⟨"en.json"⟩, ⟨"zh.json"⟩], none, none⟩
  else if dir = "empty" then ⟨none, [], none, none⟩
  else if dir = "malformed" then ⟨none, [⟨"README.md"⟩], none, none⟩
  else if dir = "mixed" then ⟨none, [⟨"en.json"⟩, ⟨"README.md"⟩], none, none⟩
  else if dir = "unlistable" then ⟨none, [], some "readdirent: input/output error", none⟩
  else if dir = "unclosable" then ⟨none, [⟨"en.json"⟩], none, some "close: input/output error"⟩
  else ⟨some "open: no such file or directory", [], none, none⟩

/-- An environment over `sampleFs` rooted at `rootDir`: joining is
concatenation with a slash, every path exists, and the collaborators
succeed. -/
def sampleEnv (fs : String → DirAnswer) : Env String Nat Unit where
  lang := sampleLang
  fs := fs
  Stat := fun _ => none
  IsExist := fun _ => false
  Join := fun a b => a ++ "/" ++ b
  Localize := fun o => Outcome.ret o.bundle.AcceptLanguage.length
  Register := fun _ _ _ => Outcome.ret ()

/-- A server as `New` leaves it: HTTP server set, `done` open. -/
def sampleServer : Server Nat Unit :=
  ⟨(), some ⟨[2]⟩, ⟨false⟩, "."⟩

/-! ## Auxiliary lemmas -/

theorem foldl_scanStep {Tag : Type} (lib : LanguagePkg Tag) (files : List FileInfo)
    (acc : List Tag) :
    files.foldl (scanStep lib) acc = acc ++ files.map (entryTag lib) := by
  induction files generalizing acc with
  | nil => simp
  | cons f fs ih => simp [List.foldl_cons, ih, scanStep, entryTag]

theorem LoadSupportLanguage_of_readable {Tag : Type} (lib : LanguagePkg Tag)
    (fs : String → DirAnswer) (dir : String) (w : World) (h : Readable fs dir) :
    LoadSupportLanguage lib fs dir w =
      (if (fs dir).entries = [] then
          ([], some ("not found any language file in directory: " ++ dir))
        else ((fs dir).entries.map (entryTag lib), none), w) := by
  obtain ⟨ho, hr, hc⟩ := h
  cases w with
  | mk hs =>
    by_cases he : (fs dir).entries = []
    · simp [LoadSupportLanguage, osOpen, Readdir, Close, ho, hr, hc, he]
    · simp [LoadSupportLanguage, osOpen, Readdir, Close, ho, hr, hc, he, foldl_scanStep]

theorem CutSuffix_append (base suffix : String) :
    CutSuffix (base ++ suffix) suffix = (base, true) := by
  have h1 : HasSuffix (base ++ suffix) suffix = true := by
    simp [HasSuffix, String.data_append]
  simp [CutSuffix, h1, String.data_append]

theorem CutSuffix_of_not_HasSuffix (name suffix : String) (h : HasSuffix name suffix = false) :
    CutSuffix name suffix = (name, false) := by
  simp [CutSuffix, h]

theorem GetLngHandle_of_parse_error {Tag : Type} (lib : LanguagePkg Tag) (context : Context)
    (defaultLng : String) (e : GoError)
    (h : (lib.ParseAcceptLanguage (context.GetHeader "Accept-Language")).2 = some e) :
    GetLngHandle lib context defaultLng = Outcome.ret defaultLng := by
  simp [GetLngHandle, h]

/-! ## The language getter (C1, C2) -/

/-- C1. On a request without an `Accept-Language` header the getter does not
return `defaultLng`: `GetHeader` yields the empty string, the header parser
accepts it with no tag and no error, and `lang[0]` panics. -/
theorem GetLngHandle_absent_header_panics {Tag : Type} (lib : LanguagePkg Tag)
    (context : Context) (defaultLng : String)
    (habsent : context.GetHeader "Accept-Language" = "")
    (hlib : lib.ParseAcceptLanguage "" = ([], none)) :
    GetLngHandle lib context defaultLng =
      Outcome.panic "runtime error: index out of range [0] with length 0" := by
  simp [GetLngHandle, habsent, hlib]

theorem GetLngHandle_absent_header_panics_witness :
    Context.GetHeader ⟨[("Host", "panel.local")]⟩ "Accept-Language" = "" ∧
    sampleLang.ParseAcceptLanguage "" = ([], none) ∧
    GetLngHandle sampleLang ⟨[("Host", "panel.local")]⟩ "zh" =
      Outcome.panic "runtime error: index out of range [0] with length 0" :=
  ⟨by decide, by decide,
    GetLngHandle_absent_header_panics sampleLang ⟨[("Host", "panel.local")]⟩ "zh"
      (by decide) (by decide)⟩

/-- C2, as stated, fails: the header `en;q=0` parses without error, yet the
parsed list has no first tag and the getter returns nothing. -/
theorem GetLngHandle_first_tag_counterexample :
    (sampleLang.ParseAcceptLanguage
        (Context.GetHeader ⟨[("Accept-Language", "en;q=0")]⟩ "Accept-Language")).2 = none ∧
    ∀ v : String,
      GetLngHandle sampleLang ⟨[("Accept-Language", "en;q=0")]⟩ "zh" ≠ Outcome.ret v := by
  refine ⟨by decide, ?_⟩
  intro v h
  have hp : GetLngHandle sampleLang ⟨[("Accept-Language", "en;q=0")]⟩ "zh" =
      Outcome.panic "runtime error: index out of range [0] with length 0" := by decide
  rw [hp] at h
  cases h

/-- C2, amended. When the header parses without error to a list with at least
one tag, the getter installed by `GinI18nLocalize` returns the string form of
the first tag, whatever the supported tags and the default language are. -/
theorem GetLngHandle_first_tag {Tag : Type} (lib : LanguagePkg Tag) (lang : String)
    (supported : List Tag) (context : Context) (defaultLng : String) (t : Tag)
    (rest : List Tag)
    (h : lib.ParseAcceptLanguage (context.GetHeader "Accept-Language") = (t :: rest, none)) :
    (localizeOptions lib lang supported).getLngHandle context defaultLng =
      Outcome.ret (lib.tagString t) := by
  simp [localizeOptions, GetLngHandle, h]

theorem GetLngHandle_first_tag_witness :
    sampleLang.ParseAcceptLanguage
        (Context.GetHeader ⟨[("Accept-Language", "zh-CN,en;q=0.8")]⟩ "Accept-Language") =
      ("zh-CN" :: ["en"], none) ∧
    (localizeOptions sampleLang "assets/lang" ["en", "zh"]).getLngHandle
        ⟨[("Accept-Language", "zh-CN,en;q=0.8")]⟩ "zh" = Outcome.ret "zh-CN" :=
  ⟨by decide,
    GetLngHandle_first_tag sampleLang "assets/lang" ["en", "zh"]
      ⟨[("Accept-Language", "zh-CN,en;q=0.8")]⟩ "zh" "zh-CN" ["en"] (by decide)⟩

/-! ## The locale catalog loader (C3, C4, C8, C9, C10) -/

/-- C3, as stated, fails: a readable directory whose only entry is malformed
is loaded without error. -/
theorem LoadSupportLanguage_all_malformed_counterexample :
    Readable sampleFs "malformed" ∧
    (∀ f ∈ (sampleFs "malformed").entries, ¬ validEntry sampleLang f) ∧
    (LoadSupportLanguage sampleLang sampleFs "malformed" ⟨[]⟩).1 = (["und"], none) := by
  refine ⟨by unfold Readable; decide, ?_, by decide⟩
  intro f hf
  have hf1 : f = ⟨"README.md"⟩ := by
    have : (sampleFs "malformed").entries = [⟨"README.md"⟩] := by decide
    rw [this] at hf
    simpa using hf
  subst hf1
  unfold validEntry
  decide

/-- C3, amended. For a readable directory the loader returns an error exactly
when the directory has no entry, and the error is then the
no-language-file error naming the directory. -/
theorem LoadSupportLanguage_error_iff_no_entry {Tag : Type} (lib : LanguagePkg Tag)
    (fs : String → DirAnswer) (dir : String) (w : World) (h : Readable fs dir) :
    ((LoadSupportLanguage lib fs dir w).1.2 ≠ none ↔ (fs dir).entries = []) ∧
    ((fs dir).entries = [] →
      (LoadSupportLanguage lib fs dir w).1 =
        ([], some ("not found any language file in directory: " ++ dir))) := by
  rw [LoadSupportLanguage_of_readable lib fs dir w h]
  by_cases he : (fs dir).entries = [] <;> simp [he]

theorem LoadSupportLanguage_error_iff_no_entry_witness :
    Readable sampleFs "empty" ∧
    ((LoadSupportLanguage sampleLang sampleFs "empty" ⟨[]⟩).1.2 ≠ none ↔
      (sampleFs "empty").entries = []) ∧
    ((sampleFs "empty").entries = [] →
      (LoadSupportLanguage sampleLang sampleFs "empty" ⟨[]⟩).1 =
        ([], some ("not found any language file in directory: " ++ "empty"))) :=
  ⟨by unfold Readable; decide,
    LoadSupportLanguage_error_iff_no_entry sampleLang sampleFs "empty" ⟨[]⟩
      (by unfold Readable; decide)⟩

/-- C4, as stated, fails: in a directory holding `en.json` and `README.md`
the malformed entry contributes the tag `und`, which is the parse of no
validly named entry. -/
theorem LoadSupportLanguage_mixed_counterexample :
    Readable sampleFs "mixed" ∧
    (∃ f ∈ (sampleFs "mixed").entries, validEntry sampleLang f) ∧
    (LoadSupportLanguage sampleLang sampleFs "mixed" ⟨[]⟩).1 = (["en", "und"], none) ∧
    ¬ (∀ t ∈ (LoadSupportLanguage sampleLang sampleFs "mixed" ⟨[]⟩).1.1,
        ∃ f ∈ (sampleFs "mixed").entries, validEntry sampleLang f ∧ entryTag sampleLang f = t) := by
  have he : (sampleFs "mixed").entries = [⟨"en.json"⟩, ⟨"README.md"⟩] := by decide
  have hr : (LoadSupportLanguage sampleLang sampleFs "mixed" ⟨[]⟩).1 = (["en", "und"], none) := by
    decide
  have hv : validEntry sampleLang ⟨"en.json"⟩ := by unfold validEntry; decide
  have hn : ¬ validEntry sampleLang ⟨"README.md"⟩ := by unfold validEntry; decide
  have ht : entryTag sampleLang ⟨"en.json"⟩ ≠ "und" := by decide
  refine ⟨by unfold Readable; decide, ⟨⟨"en.json"⟩, by rw [he]; simp, hv⟩, hr, ?_⟩
  intro hall
  obtain ⟨f, hf, hfv, hft⟩ := hall "und" (by rw [hr]; simp)
  rw [he] at hf
  simp only [List.mem_cons, List.mem_singleton, List.not_mem_nil, or_false] at hf
  rcases hf with hf | hf
  · subst hf; exact ht hft
  · subst hf; exact hn hfv

/-- C4, amended. For a readable directory with at least one validly named
entry the loader succeeds with a non-empty sequence holding one tag per
entry: the tag of every entry is in the result, every returned tag is the
tag `language.Parse` gave for some entry, and a malformed entry contributes
the tag returned with its parse error. -/
theorem LoadSupportLanguage_one_tag_per_entry {Tag : Type} (lib : LanguagePkg Tag)
    (fs : String → DirAnswer) (dir : String) (w : World) (h : Readable fs dir)
    (hv : ∃ f ∈ (fs dir).entries, validEntry lib f) :
    (LoadSupportLanguage lib fs dir w).1.2 = none ∧
    (LoadSupportLanguage lib fs dir w).1.1 ≠ [] ∧
    (LoadSupportLanguage lib fs dir w).1.1.length = (fs dir).entries.length ∧
    (∀ f ∈ (fs dir).entries, entryTag lib f ∈ (LoadSupportLanguage lib fs dir w).1.1) ∧
    (∀ t ∈ (LoadSupportLanguage lib fs dir w).1.1,
      ∃ f ∈ (fs dir).entries, entryTag lib f = t) := by
  obtain ⟨f0, hf0, _⟩ := hv
  have he : (fs dir).entries ≠ [] := List.ne_nil_of_mem hf0
  have hL : LoadSupportLanguage lib fs dir w =
      (((fs dir).entries.map (entryTag lib), none), w) := by
    rw [LoadSupportLanguage_of_readable lib fs dir w h, if_neg he]
  rw [hL]
  refine ⟨rfl, ?_, List.length_map _ _, ?_, ?_⟩
  · intro hnil
    exact he (List.map_eq_nil_iff.mp hnil)
  · intro f hf
    exact List.mem_map_of_mem _ hf
  · intro t ht
    obtain ⟨f, hf, hft⟩ := List.mem_map.mp ht
    exact ⟨f, hf, hft⟩

theorem LoadSupportLanguage_one_tag_per_entry_witness :
    (LoadSupportLanguage sampleLang sampleFs "mixed" ⟨[]⟩).1.2 = none ∧
    (LoadSupportLanguage sampleLang sampleFs "mixed" ⟨[]⟩).1.1 ≠ [] ∧
    (LoadSupportLanguage sampleLang sampleFs "mixed" ⟨[]⟩).1.1.length =
      (sampleFs "mixed").entries.length ∧
    (∀ f ∈ (sampleFs "mixed").entries,
      entryTag sampleLang f ∈ (LoadSupportLanguage sampleLang sampleFs "mixed" ⟨[]⟩).1.1) ∧
    (∀ t ∈ (LoadSupportLanguage sampleLang sampleFs "mixed" ⟨[]⟩).1.1,
      ∃ f ∈ (sampleFs "mixed").entries, entryTag sampleLang f = t) :=
  LoadSupportLanguage_one_tag_per_entry sampleLang sampleFs "mixed" ⟨[]⟩
    (by unfold Readable; decide)
    ⟨⟨"en.json"⟩, by decide, by unfold validEntry; decide⟩

/-- C8. When the directory opens but `Readdir` fails, the loader returns the
`Readdir` error at line 84 without calling `Close`: the handle it opened is
still open when it returns. -/
theorem LoadSupportLanguage_leaves_handle_open {Tag : Type} (lib : LanguagePkg Tag)
    (fs : String → DirAnswer) (dir : String) (w : World) (e : GoError)
    (ho : (fs dir).openErr = none) (hr : (fs dir).readdirErr = some e) :
    LoadSupportLanguage lib fs dir w = (([], some e), ⟨dir :: w.openHandles⟩) := by
  simp [LoadSupportLanguage, osOpen, Readdir, ho, hr]

theorem LoadSupportLanguage_leaves_handle_open_witness :
    (sampleFs "unlistable").openErr = none ∧
    (sampleFs "unlistable").readdirErr = some "readdirent: input/output error" ∧
    LoadSupportLanguage sampleLang sampleFs "unlistable" ⟨[]⟩ =
      (([], some "readdirent: input/output error"), ⟨"unlistable" :: []⟩) :=
  ⟨by decide, by decide,
    LoadSupportLanguage_leaves_handle_open sampleLang sampleFs "unlistable" ⟨[]⟩
      "readdirent: input/output error" (by decide) (by decide)⟩

/-- C9. When the directory cannot be opened or cannot be listed, the loader
returns a non-nil error and no tags. After a failed `os.Open` the error is
the one `Readdir` reports for the nil handle. -/
theorem LoadSupportLanguage_unreadable {Tag : Type} (lib : LanguagePkg Tag)
    (fs : String → DirAnswer) (dir : String) (w : World)
    (h : (fs dir).openErr ≠ none ∨ (fs dir).readdirErr ≠ none) :
    (LoadSupportLanguage lib fs dir w).1.2 ≠ none ∧
    (LoadSupportLanguage lib fs dir w).1.1 = [] ∧
    ((fs dir).openErr ≠ none →
      (LoadSupportLanguage lib fs dir w) = (([], some "invalid argument"), w)) := by
  cases ho : (fs dir).openErr with
  | some e0 =>
    simp [LoadSupportLanguage, osOpen, Readdir, ho]
  | none =>
    rw [ho] at h
    cases hr : (fs dir).readdirErr with
    | none => rw [hr] at h; simp at h
    | some e => simp [LoadSupportLanguage, osOpen, Readdir, ho, hr]

theorem LoadSupportLanguage_unreadable_witness :
    (LoadSupportLanguage sampleLang sampleFs "nowhere" ⟨[]⟩).1.2 ≠ none ∧
    (LoadSupportLanguage sampleLang sampleFs "nowhere" ⟨[]⟩).1.1 = [] ∧
    ((sampleFs "nowhere").openErr ≠ none →
      (LoadSupportLanguage sampleLang sampleFs "nowhere" ⟨[]⟩) =
        (([], some "invalid argument"), ⟨[]⟩)) :=
  LoadSupportLanguage_unreadable sampleLang sampleFs "nowhere" ⟨[]⟩ (Or.inl (by decide))

/-- C10, as stated, fails: a directory that is listed without error and has
one entry is not loaded when `Close` then reports an error; the loader
returns that error and no tags (lines 87-90). -/
theorem LoadSupportLanguage_close_error_counterexample :
    (sampleFs "unclosable").openErr = none ∧
    (sampleFs "unclosable").readdirErr = none ∧
    1 ≤ (sampleFs "unclosable").entries.length ∧
    (LoadSupportLanguage sampleLang sampleFs "unclosable" ⟨[]⟩).1 =
      ([], some "close: input/output error") := by
  refine ⟨by decide, by decide, by decide, by decide⟩

/-- C10, amended. For a directory that is opened, listed and closed without error and
has `n ≥ 1` entries, the loader succeeds and returns exactly `n` tags in
listing order, the `i`-th being the tag `language.Parse` returns for the
`i`-th entry name cut by `CutSuffix`, whether or not that parse reports an
error. `CutSuffix` removes one trailing `.json` and leaves a name without
that suffix unchanged. -/
theorem LoadSupportLanguage_tags_in_listing_order {Tag : Type} (lib : LanguagePkg Tag)
    (fs : String → DirAnswer) (dir : String) (w : World) (h : Readable fs dir)
    (hn : 1 ≤ (fs dir).entries.length) :
    (LoadSupportLanguage lib fs dir w).1.2 = none ∧
    (LoadSupportLanguage lib fs dir w).1.1.length = (fs dir).entries.length ∧
    (LoadSupportLanguage lib fs dir w).1.1 =
      (fs dir).entries.map (fun file => (lib.Parse (CutSuffix file.Name ".json").1).1) ∧
    (∀ (i : Nat) (hi : i < (fs dir).entries.length),
      (LoadSupportLanguage lib fs dir w).1.1[i]? =
        some (lib.Parse (CutSuffix ((fs dir).entries.get ⟨i, hi⟩).Name ".json").1).1) ∧
    (∀ base : String, CutSuffix (base ++ ".json") ".json" = (base, true)) ∧
    (∀ name : String, HasSuffix name ".json" = false →
      CutSuffix name ".json" = (name, false)) := by
  have he : (fs dir).entries ≠ [] := by
    intro hnil
    rw [hnil] at hn
    simp at hn
  have hL : LoadSupportLanguage lib fs dir w =
      (((fs dir).entries.map (entryTag lib), none), w) := by
    rw [LoadSupportLanguage_of_readable lib fs dir w h, if_neg he]
  rw [hL]
  refine ⟨rfl, List.length_map _ _, rfl, ?_, fun base => CutSuffix_append base ".json",
    fun name hname => CutSuffix_of_not_HasSuffix name ".json" hname⟩
  intro i hi
  simp [List.getElem?_map, List.getElem?_eq_getElem hi, entryTag]

theorem LoadSupportLanguage_tags_in_listing_order_witness :
    (LoadSupportLanguage sampleLang sampleFs "assets/lang" ⟨[]⟩).1 = (["en", "zh"], none) ∧
    (LoadSupportLanguage sampleLang sampleFs "mixed" ⟨[]⟩).1.1 =
      (sampleFs "mixed").entries.map
        (fun file => (sampleLang.Parse (CutSuffix file.Name ".json").1).1) :=
  ⟨by decide,
    (LoadSupportLanguage_tags_in_listing_order sampleLang sampleFs "mixed" ⟨[]⟩
      (by unfold Readable; decide) (by decide)).2.2.1⟩

/-! ## Server lifecycle (C5, C6, C7) -/

/-- C5, as stated, fails: on a server whose first `Stop` returned nil, a
second `Stop` whose `Shutdown` also returns nil does not return normally; it
panics at `close(s.done)`. -/
theorem Stop_twice_counterexample :
    (sampleServer.Stop none).1 = Outcome.ret none ∧
    ((sampleServer.Stop none).2.Stop none).1 = Outcome.panic "close of closed channel" := by
  constructor <;> rfl

/-- C5, amended. `Stop` is single-use. Once a `Stop` has returned, `done` is
closed, and a further `Stop` never returns normally: it panics at
`close(s.done)` when `Shutdown` returns nil and ends the process when
`Shutdown` returns an error. In both cases the server is left as it was, with
`done` closed. -/
theorem Stop_after_Stop_does_not_return {Handler Cfg : Type} (s s1 : Server Handler Cfg)
    (r : Option GoError) (v : Option GoError) (h : s.Stop r = (Outcome.ret v, s1)) :
    s1.done.closed = true ∧
    s1.Stop none = (Outcome.panic "close of closed channel", s1) ∧
    (∀ e : GoError, s1.Stop (some e) = (Outcome.exit 1, s1)) ∧
    (∀ (r2 v2 : Option GoError), (s1.Stop r2).1 ≠ Outcome.ret v2) := by
  obtain ⟨cfg, hs, done, rootDir⟩ := s
  cases hs with
  | none => simp [Server.Stop] at h
  | some srv =>
    cases r with
    | some e => simp [Server.Stop] at h
    | none =>
      cases hd : done.closed with
      | true => simp [Server.Stop, Chan.close, hd] at h
      | false =>
        simp [Server.Stop, Chan.close, hd] at h
        obtain ⟨_, hs1⟩ := h
        subst hs1
        refine ⟨rfl, by simp [Server.Stop, Chan.close], ?_, ?_⟩
        · intro e
          simp [Server.Stop]
        · intro r2 v2
          cases r2 <;> simp [Server.Stop, Chan.close]

theorem Stop_after_Stop_does_not_return_witness :
    (sampleServer.Stop none).2.done.closed = true ∧
    (sampleServer.Stop none).2.Stop none =
      (Outcome.panic "close of closed channel", (sampleServer.Stop none).2) ∧
    (∀ e : GoError,
      (sampleServer.Stop none).2.Stop (some e) = (Outcome.exit 1, (sampleServer.Stop none).2)) ∧
    (∀ (r2 v2 : Option GoError), ((sampleServer.Stop none).2.Stop r2).1 ≠ Outcome.ret v2) :=
  Stop_after_Stop_does_not_return sampleServer (sampleServer.Stop none).2 none none rfl

/-- C6, as stated, fails: with a locale directory that cannot be opened,
`New` does not return a nil handle with an error; it panics. -/
theorem New_locale_failure_counterexample :
    (LoadSupportLanguage sampleLang sampleFs
        (langDir (sampleEnv sampleFs) "missing") ⟨[]⟩).1.2 = some "invalid argument" ∧
    (New (sampleEnv sampleFs) "missing" () ⟨[]⟩).1 =
      Outcome.panic "language file is not found: invalid argument" :=
  ⟨by decide, by rfl⟩

/-- C6, amended. If locale loading fails during `New`, `GinI18nLocalize`
raises a panic carrying the load error (`log.Panicf`), and the panic leaves
`initHTTPServer`, `init` and `New` unrecovered: `New` returns nothing.
Moreover `New` never returns a non-nil error. -/
theorem New_panics_when_locale_loading_fails {Tag Handler Cfg : Type}
    (env : Env Tag Handler Cfg) (rootDir : String) (cfg : Cfg) (w : World) (e : GoError)
    (h : (LoadSupportLanguage env.lang env.fs (langDir env rootDir) w).1.2 = some e) :
    (New env rootDir cfg w).1 = Outcome.panic ("language file is not found: " ++ e) ∧
    (∀ (rootDir2 : String) (cfg2 : Cfg) (w2 : World) (srv : Option (Server Handler Cfg))
        (err : GoError), (New env rootDir2 cfg2 w2).1 ≠ Outcome.ret (srv, some err)) := by
  constructor
  · simp [New, Server.init, Server.initHTTPServer, GinI18nLocalize, h]
  · intro rootDir2 cfg2 w2 srv err
    simp only [New, Server.init, Server.initHTTPServer, GinI18nLocalize]
    cases (LoadSupportLanguage env.lang env.fs (langDir env rootDir2) w2).1.2 with
    | some e2 => simp
    | none =>
      simp only []
      cases env.Localize (localizeOptions env.lang (langDir env rootDir2)
          (LoadSupportLanguage env.lang env.fs (langDir env rootDir2) w2).1.1) with
      | panic m => simp
      | exit c => simp
      | ret hd =>
        simp only []
        cases env.Register cfg2 rootDir2 ([] ++ [hd]) with
        | panic m => simp
        | exit c => simp
        | ret u => simp

theorem New_panics_when_locale_loading_fails_witness :
    (New (sampleEnv sampleFs) "missing" () ⟨[]⟩).1 =
      Outcome.panic ("language file is not found: " ++ "invalid argument") ∧
    (∀ (rootDir2 : String) (cfg2 : Unit) (w2 : World) (srv : Option (Server Nat Unit))
        (err : GoError),
      (New (sampleEnv sampleFs) rootDir2 cfg2 w2).1 ≠ Outcome.ret (srv, some err)) :=
  New_panics_when_locale_loading_fails (sampleEnv sampleFs) "missing" () ⟨[]⟩
    "invalid argument" (by decide)

/-- C7, as stated, fails: when `Shutdown` returns an error, `log.Fatalf` ends
the process before `close(s.done)`; `done` is not closed and the wait of
`Run` is not released. -/
theorem Stop_fatal_path_counterexample :
    (sampleServer.Stop (some "context deadline exceeded")).1 = Outcome.exit 1 ∧
    (sampleServer.Stop (some "context deadline exceeded")).2.done.closed = false ∧
    (sampleServer.Stop (some "context deadline exceeded")).2.runWait = none := by
  refine ⟨rfl, rfl, rfl⟩

/-- C7, amended. On a serving server (HTTP server set, `done` open), when
`Shutdown` returns nil `Stop` returns nil, closes `done` once and releases the
wait of `Run`; when `Shutdown` returns an error `Stop` ends the process with
status 1 and `done` is left open. -/
theorem Stop_closes_done_on_success {Handler Cfg : Type} (s : Server Handler Cfg)
    (srv : HttpServer Handler) (hs : s.s = some srv) (hd : s.done.closed = false) :
    ((s.Stop none).1 = Outcome.ret none ∧
      (s.Stop none).2.done.closed = true ∧
      (s.Stop none).2.runWait = some ()) ∧
    (∀ e : GoError,
      (s.Stop (some e)).1 = Outcome.exit 1 ∧ (s.Stop (some e)).2.done.closed = false) := by
  obtain ⟨cfg, s0, done, rootDir⟩ := s
  simp only at hs hd
  subst hs
  refine ⟨?_, ?_⟩
  · simp [Server.Stop, Chan.close, hd, Server.runWait, Chan.recv]
  · intro e
    simp [Server.Stop, hd]

theorem Stop_closes_done_on_success_witness :
    ((sampleServer.Stop none).1 = Outcome.ret none ∧
      (sampleServer.Stop none).2.done.closed = true ∧
      (sampleServer.Stop none).2.runWait = some ()) ∧
    (∀ e : GoError,
      (sampleServer.Stop (some e)).1 = Outcome.exit 1 ∧
      (sampleServer.Stop (some e)).2.done.closed = false) :=
  Stop_closes_done_on_success sampleServer ⟨[2]⟩ rfl rfl

end FrpsPanel
